import Mathlib

/-!
Verification development for the PII/GDPR scanner in `src/scanner/scanner.py`.

The scanner walks a repository tree, detects PII (email / phone / ssn) on each
line of each readable file using the regexes in `PII_PATTERNS`, suppresses
candidates matched by user-supplied allowlist text rules, and aggregates the
surviving findings into a JSON report with per-severity counts.

The embedding below translates the Python source shallowly:
* Python regexes become values of the `RE` type, matched by a fueled
  backtracking matcher that follows `re`'s semantics for the constructs the
  scanner uses (greedy quantifiers, leftmost search, first-alternative
  preference, `\b` word boundaries, case-insensitive classes).
* File-system state becomes an explicit `FSTree`; reading a file becomes an
  `Option String` (`none` models `OSError`/`UnicodeDecodeError`).
* `Path.rglob("*")` becomes an explicit enumeration of every entry under the
  root; an unlistable root (missing, not a directory, permission denied) is
  modelled as `none`, which `pathlib` turns into an empty iteration.
-/

/-! ## Regex engine

`RE` is the abstract syntax of the regex fragment used by the scanner:
character classes, sequencing, alternation, greedy counted repetition and
word boundaries.  `matchEnd` is a continuation-passing backtracking matcher;
the first accepted continuation (in Python `re`'s preference order: longer
repetitions first, left alternative first) wins. -/

inductive RE where
  | eps : RE
  | cls : (Char → Bool) → RE
  | seq : RE → RE → RE
  | alt : RE → RE → RE
  /-- Greedy counted repetition `a\x7blo,hi\x7d`; `hi = none` means unbounded. -/
  | rep : RE → Nat → Option Nat → RE
  /-- The `\b` word-boundary assertion. -/
  | wordB : RE

def isDigitCh (c : Char) : Bool := '0' ≤ c && c ≤ '9'

def isUpperAZ (c : Char) : Bool := 'A' ≤ c && c ≤ 'Z'

def isLowerAZ (c : Char) : Bool := 'a' ≤ c && c ≤ 'z'

/-- Python `\s`: space, tab, newline, carriage return, vertical tab, form feed. -/
def isSpaceCh (c : Char) : Bool :=
  c = ' ' || c = '\t' || c = '\n' || c = '\r' || c = '\x0b' || c = '\x0c'

/-- Python `\w` for ASCII: letters, digits, underscore (used by `\b`). -/
def isWordCh (c : Char) : Bool := isUpperAZ c || isLowerAZ c || isDigitCh c || c = '_'

/-- A literal character (case-sensitive, as in an uncompiled-flag regex). -/
def rchar (c : Char) : RE := .cls (fun x => x = c)

/-- A literal string: the sequence of its characters. -/
def rstr (s : String) : RE := s.toList.foldr (fun c r => .seq (rchar c) r) .eps

/-- `a?` — greedy optional. -/
def ropt (a : RE) : RE := .rep a 0 (some 1)

/-- `a+` — greedy one-or-more. -/
def rplus (a : RE) : RE := .rep a 1 none

/-- Backtracking matcher.  `matchEnd fuel r prev s k` tries to match `r` at the
start of `s` (with `prev` the character just before `s`, for `\b`), and passes
each candidate suffix to the continuation `k` in Python `re`'s backtracking
order; the first `some` result wins.  `fuel` bounds recursion depth; it is
always called with fuel that is generous for the string being matched. -/
def matchEnd : Nat → RE → Option Char → List Char →
    (Option Char → List Char → Option (List Char)) → Option (List Char)
  | 0, _, _, _, _ => none
  | _ + 1, .eps, prev, s, k => k prev s
  | _ + 1, .cls p, _, s, k =>
    match s with
    | [] => none
    | c :: rest => if p c then k (some c) rest else none
  | fuel + 1, .seq a b, prev, s, k =>
    matchEnd fuel a prev s (fun prev2 s2 => matchEnd fuel b prev2 s2 k)
  | fuel + 1, .alt a b, prev, s, k =>
    (matchEnd fuel a prev s k) <|> (matchEnd fuel b prev s k)
  | _ + 1, .wordB, prev, s, k =>
    let before := match prev with | none => false | some c => isWordCh c
    let after := match s with | [] => false | c :: _ => isWordCh c
    if before != after then k prev s else none
  | fuel + 1, .rep a lo hi, prev, s, k =>
    match lo with
    | n + 1 =>
      matchEnd fuel a prev s
        (fun p2 s2 => matchEnd fuel (.rep a n (hi.map (· - 1))) p2 s2 k)
    | 0 =>
      match hi with
      | some 0 => k prev s
      | _ =>
        (matchEnd fuel a prev s
          (fun p2 s2 => matchEnd fuel (.rep a 0 (hi.map (· - 1))) p2 s2 k)) <|>
        (k prev s)

/-- Depth budget that is generous for every pattern the scanner uses. -/
def matchFuel (s : List Char) : Nat := 8 * s.length + 64

/-- Try to match `r` at the start of `s`; answer the matched length, chosen in
Python `re`'s preference order (leftmost-greedy). -/
def tryMatch (r : RE) (prev : Option Char) (s : List Char) : Option Nat :=
  match matchEnd (matchFuel s) r prev s (fun _ rest => some rest) with
  | none => none
  | some rest => some (s.length - rest.length)

/-- One step of `re.finditer`'s scan loop: try each start position from left to
right, emit the matched substring, and continue after it (advancing by one
character on an empty match, as `re` does). -/
def findIterAux : Nat → RE → Option Char → List Char → List String
  | 0, _, _, _ => []
  | fuel + 1, r, prev, s =>
    match tryMatch r prev s with
    | some (len + 1) =>
      String.mk (s.take (len + 1)) ::
        findIterAux fuel r (s.take (len + 1)).getLast? (s.drop (len + 1))
    | some 0 =>
      match s with
      | [] => [""]
      | c :: rest => "" :: findIterAux fuel r (some c) rest
    | none =>
      match s with
      | [] => []
      | c :: rest => findIterAux fuel r (some c) rest

/-- `pattern.finditer(line)`: the matched substrings, leftmost first,
non-overlapping. -/
def findIter (r : RE) (s : String) : List String :=
  findIterAux (s.toList.length + 1) r none s.toList

def reSearchAux : Nat → RE → Option Char → List Char → Bool
  | 0, _, _, _ => false
  | fuel + 1, r, prev, s =>
    match tryMatch r prev s with
    | some _ => true
    | none =>
      match s with
      | [] => false
      | c :: rest => reSearchAux fuel r (some c) rest

/-- `re.search(pattern, text)` viewed as a Boolean: does the pattern match
anywhere in `text`? -/
def reSearch (r : RE) (s : String) : Bool :=
  reSearchAux (s.toList.length + 1) r none s.toList

/-! ## PatternCatalog: `PII_PATTERNS` and `SEVERITY_MAPPING`

Translations of the module-level constants of `scanner.py`. -/

/-- The class `[A-Z0-9._%+-]` compiled with `re.IGNORECASE`. -/
def emailLocalChar (c : Char) : Bool :=
  isUpperAZ c || isLowerAZ c || isDigitCh c || c = '.' || c = '_' || c = '%' ||
    c = '+' || c = '-'

/-- The class `[A-Z0-9.-]` compiled with `re.IGNORECASE`. -/
def emailDomainChar (c : Char) : Bool :=
  isUpperAZ c || isLowerAZ c || isDigitCh c || c = '.' || c = '-'

/-- The class `[A-Z]` compiled with `re.IGNORECASE`. -/
def emailAlphaChar (c : Char) : Bool := isUpperAZ c || isLowerAZ c

/-- `[A-Z0-9._%+-]+@[A-Z0-9.-]+\.[A-Z]\x7b2,\x7d` with `re.IGNORECASE`. -/
def emailRE : RE :=
  .seq (rplus (.cls emailLocalChar))
    (.seq (rchar '@')
      (.seq (rplus (.cls emailDomainChar))
        (.seq (rchar '.') (.rep (.cls emailAlphaChar) 2 none))))

/-- The class `[-.\s]` of separator characters in the phone regex. -/
def phoneSepChar (c : Char) : Bool := c = '-' || c = '.' || isSpaceCh c

/-- `\d\x7b3\x7d`. -/
def digit3 : RE := .rep (.cls isDigitCh) 3 (some 3)

/-- `\d\x7b4\x7d`. -/
def digit4 : RE := .rep (.cls isDigitCh) 4 (some 4)

/-- `(?:\+?1[-.\s]?)?(?:\(?\d\x7b3\x7d\)?|\d\x7b3\x7d)[-.\s]?\d\x7b3\x7d[-.\s]?\d\x7b4\x7d`. -/
def phoneRE : RE :=
  .seq (ropt (.seq (ropt (rchar '+')) (.seq (rchar '1') (ropt (.cls phoneSepChar)))))
    (.seq (.alt (.seq (ropt (rchar '(')) (.seq digit3 (ropt (rchar ')')))) digit3)
      (.seq (ropt (.cls phoneSepChar))
        (.seq digit3
          (.seq (ropt (.cls phoneSepChar)) digit4))))

/-- `\b\d\x7b3\x7d-\d\x7b2\x7d-\d\x7b4\x7d\b`. -/
def ssnRE : RE :=
  .seq .wordB
    (.seq digit3
      (.seq (rchar '-')
        (.seq (.rep (.cls isDigitCh) 2 (some 2))
          (.seq (rchar '-') (.seq digit4 .wordB)))))

/-- `PII_PATTERNS`: insertion-ordered, as a Python dict iterates. -/
def PII_PATTERNS : List (String × RE) :=
  [("email", emailRE), ("phone", phoneRE), ("ssn", ssnRE)]

/-- `SEVERITY_MAPPING` as an association list. -/
def SEVERITY_MAPPING : List (String × String) :=
  [("email", "medium"), ("phone", "high"), ("ssn", "high")]

/-- `SEVERITY_MAPPING.get(pii_type, "medium")`. -/
def severity_of (pii_type : String) : String :=
  (SEVERITY_MAPPING.lookup pii_type).getD "medium"

/-! ## Allowlist evaluation and per-file scanning -/

/-- A character stripped by Python `str.strip()` (an `str.isspace` character):
ASCII whitespace, the separator control characters, and the Unicode spaces. -/
def isStripWS (c : Char) : Bool :=
  isSpaceCh c || c = '\x1c' || c = '\x1d' || c = '\x1e' || c = '\x1f' ||
    c = '\x85' || c = '\xa0' || c = '\u1680' || ('\u2000' ≤ c && c ≤ '\u200a') ||
    c = '\u2028' || c = '\u2029' || c = '\u202f' || c = '\u205f' || c = '\u3000'

/-- Python `text.strip()`: drop leading and trailing whitespace. -/
def pyStrip (s : String) : String :=
  String.mk (((s.toList.dropWhile isStripWS).reverse.dropWhile isStripWS).reverse)

/-- `normalize_match`: whitespace-trim the matched text (`text.strip()`). -/
def normalize_match (text : String) : String := pyStrip text

/-- `is_allowed_match`: `any(re.search(pattern, text) for pattern in allow_patterns)`.
Text rules are modelled as already-compiled `RE` values (the code compiles each
string rule inside `re.search`). -/
def is_allowed_match (text : String) (allow_patterns : List RE) : Bool :=
  allow_patterns.any (fun pattern => reSearch pattern text)

/-- Whether a character starts a line break for `str.splitlines` (the `\r\n`
pair is handled separately by `splitlinesAux`). -/
def isLineBreak (c : Char) : Bool :=
  c = '\n' || c = '\r' || c = '\x0b' || c = '\x0c' || c = '\x1c' || c = '\x1d' ||
    c = '\x1e' || c = '\x85' || c = '\u2028' || c = '\u2029'

def splitlinesAux : List Char → List Char → List String
  | [], acc => if acc.isEmpty then [] else [String.mk acc.reverse]
  | '\r' :: '\n' :: rest, acc => String.mk acc.reverse :: splitlinesAux rest []
  | c :: rest, acc =>
    if isLineBreak c then String.mk acc.reverse :: splitlinesAux rest []
    else splitlinesAux rest (c :: acc)

/-- `content.splitlines()`: lines without their terminators, no trailing empty
line for terminator-final content. -/
def splitlines (content : String) : List String := splitlinesAux content.toList []

/-- One finding, as the dict appended in `scan_file` (line numbers are the
1-based values produced by `enumerate(..., start=1)`). -/
structure Issue where
  file : String
  line : Nat
  type : String
  «match» : String
  severity : String
  context : String
deriving DecidableEq, Repr

/-- `scan_file`: the read result is `none` when `read_text` raised
(`OSError` / `UnicodeDecodeError`), in which case the file contributes `[]`;
otherwise every pattern is run over every line and each match survives only if
neither the normalized matched text nor the full line is allowlisted.  The
source binds `matched_text = normalize_match(match.group(0))` once; here
`normalize_match m` is written out at both of its uses. -/
def scan_file (file_path : String) (readResult : Option String)
    (allow_patterns : List RE) : List Issue :=
  match readResult with
  | none => []
  | some content =>
    ((splitlines content).enumFrom 1).flatMap (fun nl =>
      PII_PATTERNS.flatMap (fun pt =>
        (findIter pt.2 nl.2).filterMap (fun m =>
          if is_allowed_match (normalize_match m) allow_patterns ||
              is_allowed_match nl.2 allow_patterns then
            none
          else
            some { file := file_path, line := nl.1, type := pt.1,
                   «match» := normalize_match m, severity := severity_of pt.1,
                   context := pyStrip nl.2 })))

/-! ## PathFilter: `should_ignore_path` -/

def DEFAULT_IGNORED_DIRECTORIES : List String :=
  [".git", "node_modules", "__pycache__", ".venv", ".next", "dist", "build",
   "coverage", "reports"]

def DEFAULT_IGNORED_FILES : List String :=
  ["package-lock.json", "yarn.lock", "pnpm-lock.yaml"]

/-- A relative path is modelled by its components (`rel_path.parts`). -/
def rel_posix (parts : List String) : String := String.intercalate "/" parts

/-- `rel_path.name`: the final component. -/
def pathFinalName (parts : List String) : String := (parts.getLast?).getD ""

/-- Translate one `fnmatch` glob component to a regex (`*`, `?`, literals —
character classes are not used by any allowlist in the claims). -/
def globComponentRE : List Char → RE
  | [] => .eps
  | '*' :: rest => .seq (.rep (.cls (fun _ => true)) 0 none) (globComponentRE rest)
  | '?' :: rest => .seq (.cls (fun _ => true)) (globComponentRE rest)
  | c :: rest => .seq (rchar c) (globComponentRE rest)

/-- Full-component `fnmatch`: the glob must consume the whole component. -/
def fnmatchB (pat : String) (s : String) : Bool :=
  (matchEnd (matchFuel s.toList + matchFuel pat.toList) (globComponentRE pat.toList)
      none s.toList
      (fun _ rest => if rest.isEmpty then some rest else none)).isSome

/-- `rel_path.match(entry)`: component-wise glob matching, anchored at the
right for a relative pattern and at the root for an absolute one. -/
def pathMatch (parts : List String) (entry : String) : Bool :=
  let patParts := (entry.splitOn "/").filter (fun p => p ≠ "")
  if patParts.length = 0 then false
  else if entry.startsWith "/" then
    patParts.length = parts.length &&
      (List.zip parts patParts).all (fun pr => fnmatchB pr.2 pr.1)
  else
    decide (patParts.length ≤ parts.length) &&
      (List.zip (parts.drop (parts.length - patParts.length)) patParts).all
        (fun pr => fnmatchB pr.2 pr.1)

/-- `entry.rstrip("/")`. -/
def rstripSlash (entry : String) : String :=
  String.mk ((entry.toList.reverse.dropWhile (fun c => c = '/')).reverse)

/-- `should_ignore_path(rel_path, ignore_paths)`: built-in directory components
first, then built-in file names, then user path rules (glob match or literal
posix-string prefix after stripping a trailing separator). -/
def should_ignore_path (rel_parts : List String) (ignore_paths : List String) : Bool :=
  if rel_parts.any (fun part => DEFAULT_IGNORED_DIRECTORIES.contains part) then
    true
  else if DEFAULT_IGNORED_FILES.contains (pathFinalName rel_parts) then
    true
  else
    ignore_paths.any (fun entry =>
      pathMatch rel_parts entry ||
        (rel_posix rel_parts).startsWith (rstripSlash entry))

/-! ## ScanEngine: traversal and `scan_repository` -/

/-- A file-system subtree: a file carries the outcome of reading it
(`none` = the read raises), a directory carries its children. -/
inductive FSTree where
  | file (name : String) (readResult : Option String)
  | dir (name : String) (children : List FSTree)
deriving Repr

def FSTree.entryName : FSTree → String
  | .file n _ => n
  | .dir n _ => n

mutual

/-- One entry of `root.rglob("*")` together with everything below it. -/
def treeEntries (base : List String) : FSTree → List (List String × FSTree)
  | FSTree.file n rd => [(base ++ [n], FSTree.file n rd)]
  | FSTree.dir n cs => (base ++ [n], FSTree.dir n cs) :: forestEntries (base ++ [n]) cs

/-- `root.rglob("*")`: every entry below the root, each with its path parts
relative to the root, directories before their contents.  (The exact
interleaving of siblings and subtrees in `pathlib` differs slightly; it is
deterministic in both and no theorem depends on it.) -/
def forestEntries (base : List String) : List FSTree → List (List String × FSTree)
  | [] => []
  | t :: rest => treeEntries base t ++ forestEntries base rest

end

/-- The listing of the scan root.  `none` models a root that cannot be listed
(missing, not a directory, or permission denied): CPython's `pathlib`
returns an empty iterator for a non-directory root and swallows a top-level
`PermissionError`, so `rglob` yields no entries and raises nothing. -/
def rootEntries : Option (List FSTree) → List (List String × FSTree)
  | none => []
  | some children => forestEntries [] children

/-- The body of `scan_repository`'s loop over `root.rglob("*")`.  For a
directory entry the source checks `should_ignore_path` but `continue`s on both
branches (the inner `if path_parts:` guard is dead logic); only file entries
can contribute issues. -/
def scan_entries (root : String) (allow_paths : List String)
    (allow_patterns : List RE) : List (List String × FSTree) → List Issue
  | [] => []
  | (parts, FSTree.dir _ _) :: rest =>
    if should_ignore_path parts allow_paths then
      scan_entries root allow_paths allow_patterns rest
    else
      scan_entries root allow_paths allow_patterns rest
  | (parts, FSTree.file _ rd) :: rest =>
    if should_ignore_path parts allow_paths then
      scan_entries root allow_paths allow_patterns rest
    else
      scan_file (root ++ "/" ++ rel_posix parts) rd allow_patterns ++
        scan_entries root allow_paths allow_patterns rest

/-- `scan_repository(root, allow_paths, allow_patterns)`. -/
def scan_repository (root : String) (listing : Option (List FSTree))
    (allow_paths : List String) (allow_patterns : List RE) : List Issue :=
  scan_entries root allow_paths allow_patterns (rootEntries listing)

/-! ## ReportAggregator: `write_report` -/

/-- The `by_severity` object: all three keys are always present. -/
structure BySeverity where
  high : Nat
  medium : Nat
  low : Nat
deriving DecidableEq, Repr

structure Summary where
  total_findings : Nat
  by_severity : BySeverity
deriving DecidableEq, Repr

structure Report where
  generated_at : String
  repository_root : String
  issues : List Issue
  summary : Summary
deriving DecidableEq, Repr

/-- The report value constructed by `write_report` (serialization and the
`mkdir`/file write are I/O outside the embedding; `generated_at` is passed in
for the `datetime.utcnow()` call). -/
def write_report (generated_at : String) (issues : List Issue) (root : String) :
    Report :=
  { generated_at := generated_at,
    repository_root := root,
    issues := issues,
    summary :=
      { total_findings := issues.length,
        by_severity :=
          { high := (issues.filter (fun issue => issue.severity == "high")).length,
            medium := (issues.filter (fun issue => issue.severity == "medium")).length,
            low := (issues.filter (fun issue => issue.severity == "low")).length } } }

/-! ## Allowlist loading and the `main` pipeline -/

/-- The relevant keys of a successfully parsed allowlist YAML mapping
(`data.get("paths")`, `data.get("regexes")`, `data.get("patterns")`, each
defaulted to `[]`).  Text rules are modelled as already-compiled regexes. -/
structure AllowData where
  paths : List String
  regexes : List RE
  patterns : List RE

/-- `load_allowlist(path)`.  The argument models the state of the allowlist
file: `none` — the file does not exist (`not path.exists()`); `some (.error e)`
— the file exists but is malformed (`yaml.safe_load` raises, or the parsed
value does not support the `get` calls); `some (.ok data)` — parsed fine. -/
def load_allowlist :
    Option (Except String AllowData) → Except String (List String × List RE)
  | none => .ok ([], [])
  | some (.error e) => .error e
  | some (.ok data) => .ok (data.paths, data.regexes ++ data.patterns)

/-- The `try` body of `main()`: load the allowlist, scan, build the report.
An exception escaping `load_allowlist` reaches `main`'s `except` handler,
which prints the error and exits 2 before `write_report` runs. -/
def mainResult (allowSrc : Option (Except String AllowData)) (root : String)
    (listing : Option (List FSTree)) (now : String) : Except String Report :=
  match load_allowlist allowSrc with
  | .error e => .error e
  | .ok (allow_paths, allow_patterns) =>
    .ok (write_report now (scan_repository root listing allow_paths allow_patterns) root)

/-! ## Candidate view of the pipeline

`scan_file` interleaves candidate generation (the regex loop) with the
allowlist filter.  The definitions below separate the two so the suppression
claims can be stated: `fileCandidates` is the regex loop without the filter,
`survives` is the filter's condition, and `toIssue` is the dict construction. -/

/-- One raw candidate match: where it was found, the full untrimmed source
line, the pattern kind, and the raw matched substring. -/
structure Candidate where
  file : String
  line_no : Nat
  lineText : String
  pii_type : String
  raw : String
deriving DecidableEq, Repr

def lineCandidates (file_path : String) (line_no : Nat) (line : String) :
    List Candidate :=
  PII_PATTERNS.flatMap (fun pt =>
    (findIter pt.2 line).map (fun m => ⟨file_path, line_no, line, pt.1, m⟩))

def fileCandidates (file_path : String) (content : String) : List Candidate :=
  ((splitlines content).enumFrom 1).flatMap (fun nl =>
    lineCandidates file_path nl.1 nl.2)

/-- A candidate survives the allowlist iff no text rule matches its normalized
matched text and no text rule matches its full untrimmed source line. -/
def survives (allow_patterns : List RE) (c : Candidate) : Bool :=
  !(is_allowed_match (normalize_match c.raw) allow_patterns ||
      is_allowed_match c.lineText allow_patterns)

/-- The finding a surviving candidate becomes. -/
def toIssue (c : Candidate) : Issue :=
  { file := c.file, line := c.line_no, type := c.pii_type,
    «match» := normalize_match c.raw, severity := severity_of c.pii_type,
    context := pyStrip c.lineText }

/-- All candidates of the files the traversal actually scans (same traversal
and path filter as `scan_entries`, without the allowlist filter). -/
def candidate_entries (root : String) (allow_paths : List String) :
    List (List String × FSTree) → List Candidate
  | [] => []
  | (_, FSTree.dir _ _) :: rest => candidate_entries root allow_paths rest
  | (parts, FSTree.file _ rd) :: rest =>
    if should_ignore_path parts allow_paths then
      candidate_entries root allow_paths rest
    else
      (match rd with
       | none => []
       | some content =>
         fileCandidates (root ++ "/" ++ rel_posix parts) content) ++
        candidate_entries root allow_paths rest

/-- All candidates of a whole scan. -/
def allCandidates (root : String) (listing : Option (List FSTree))
    (allow_paths : List String) : List Candidate :=
  candidate_entries root allow_paths (rootEntries listing)

/-! ## Structural lemmas shared by the claim theorems -/

/-- The inner `filterMap` of `scan_file` is the allowlist filter applied to the
mapped candidates of one pattern on one line. -/
theorem filterMap_matches_eq (file_path : String) (line_no : Nat) (line : String)
    (pii_type : String) (pats : List RE) (ms : List String) :
    ms.filterMap (fun m =>
      if is_allowed_match (normalize_match m) pats || is_allowed_match line pats then
        none
      else
        some { file := file_path, line := line_no, type := pii_type,
               «match» := normalize_match m, severity := severity_of pii_type,
               context := pyStrip line })
    = ((ms.map (fun m => (⟨file_path, line_no, line, pii_type, m⟩ : Candidate))).filter
        (survives pats)).map toIssue := by
  induction ms with
  | nil => rfl
  | cons m rest ih =>
    rw [List.filterMap_cons, List.map_cons, List.filter_cons]
    cases hcond : is_allowed_match (normalize_match m) pats || is_allowed_match line pats with
    | true =>
      have hs : survives pats
          (⟨file_path, line_no, line, pii_type, m⟩ : Candidate) = false := by
        show (!(is_allowed_match (normalize_match m) pats ||
          is_allowed_match line pats)) = false
        rw [hcond]
        rfl
      rw [hs]
      exact ih
    | false =>
      have hs : survives pats
          (⟨file_path, line_no, line, pii_type, m⟩ : Candidate) = true := by
        show (!(is_allowed_match (normalize_match m) pats ||
          is_allowed_match line pats)) = true
        rw [hcond]
        rfl
      rw [hs]
      exact congrArg (List.cons _) ih

/-- `scan_file` on readable content is exactly: generate all candidates, keep
the surviving ones, materialize them as findings. -/
theorem scan_file_some_eq (file_path content : String) (pats : List RE) :
    scan_file file_path (some content) pats =
      ((fileCandidates file_path content).filter (survives pats)).map toIssue := by
  simp only [scan_file, fileCandidates]
  rw [List.filter_flatMap, List.map_flatMap]
  refine congrArg _ (funext fun nl => ?_)
  simp only [lineCandidates]
  rw [List.filter_flatMap, List.map_flatMap]
  refine congrArg _ (funext fun pt => ?_)
  exact filterMap_matches_eq file_path nl.1 nl.2 pt.1 pats (findIter pt.2 nl.2)

/-- The whole scan is exactly: generate all candidates of the traversed and
path-filtered files, keep the surviving ones, materialize them as findings. -/
theorem scan_entries_eq (root : String) (ap : List String) (pats : List RE)
    (l : List (List String × FSTree)) :
    scan_entries root ap pats l =
      ((candidate_entries root ap l).filter (survives pats)).map toIssue := by
  induction l with
  | nil => rfl
  | cons e rest ih =>
    obtain ⟨parts, t⟩ := e
    cases t with
    | dir n cs => simpa [scan_entries, candidate_entries] using ih
    | file n rd =>
      by_cases h : should_ignore_path parts ap
      · simpa [scan_entries, candidate_entries, h] using ih
      · cases rd with
        | none => simpa [scan_entries, candidate_entries, h, scan_file] using ih
        | some content =>
          simp [scan_entries, candidate_entries, h, List.filter_append,
            List.map_append, scan_file_some_eq, ih]

/-- `scan_repository` in candidate form. -/
theorem scan_repository_eq (root : String) (listing : Option (List FSTree))
    (ap : List String) (pats : List RE) :
    scan_repository root listing ap pats =
      ((allCandidates root listing ap).filter (survives pats)).map toIssue :=
  scan_entries_eq root ap pats (rootEntries listing)

/-- Growing the allowlist: a text rule appended to the rule list adds its own
`re.search` check disjunctively. -/
theorem is_allowed_match_append (text : String) (pats : List RE) (r : RE) :
    is_allowed_match text (pats ++ [r]) =
      (is_allowed_match text pats || reSearch r text) := by
  simp [is_allowed_match, List.any_append]

/-- `severity_of` only ever produces `"medium"` or `"high"` (the mapping's
values, or the default). -/
theorem severity_of_cases (k : String) :
    severity_of k = "medium" ∨ severity_of k = "high" := by
  unfold severity_of SEVERITY_MAPPING
  simp only [List.lookup]
  split
  · exact Or.inl rfl
  · split
    · exact Or.inr rfl
    · split
      · exact Or.inr rfl
      · exact Or.inl rfl

/-- Every finding of a scan carries one of the two severities the mapping can
produce — in particular one of the report's three severity keys. -/
theorem scan_severity_valid (root : String) (listing : Option (List FSTree))
    (ap : List String) (pats : List RE) :
    ∀ issue ∈ scan_repository root listing ap pats,
      issue.severity = "high" ∨ issue.severity = "medium" ∨ issue.severity = "low" := by
  intro issue hmem
  rw [scan_repository_eq] at hmem
  obtain ⟨c, _, rfl⟩ := List.mem_map.mp hmem
  rcases severity_of_cases c.pii_type with h | h
  · exact Or.inr (Or.inl h)
  · exact Or.inl h

/-- The three per-severity counts partition any finding list whose severities
all lie in the three report keys. -/
theorem count_three_severities (issues : List Issue)
    (h : ∀ issue ∈ issues,
      issue.severity = "high" ∨ issue.severity = "medium" ∨ issue.severity = "low") :
    (issues.filter (fun i => i.severity == "high")).length +
      (issues.filter (fun i => i.severity == "medium")).length +
      (issues.filter (fun i => i.severity == "low")).length = issues.length := by
  induction issues with
  | nil => rfl
  | cons i rest ih =>
    have hrest := ih (fun x hx => h x (List.mem_cons_of_mem _ hx))
    have hi := h i (List.mem_cons_self _ _)
    rcases hi with hi | hi | hi
    · rw [List.filter_cons, List.filter_cons, List.filter_cons, hi,
        if_pos (by rfl), if_neg (by decide), if_neg (by decide), List.length_cons,
        List.length_cons]
      omega
    · rw [List.filter_cons, List.filter_cons, List.filter_cons, hi,
        if_neg (by decide), if_pos (by rfl), if_neg (by decide), List.length_cons,
        List.length_cons]
      omega
    · rw [List.filter_cons, List.filter_cons, List.filter_cons, hi,
        if_neg (by decide), if_neg (by decide), if_pos (by rfl), List.length_cons,
        List.length_cons]
      omega

/-! ## Claim theorems -/

/-- C1: during a scan a candidate match is suppressed — and so never becomes a
Finding — exactly when at least one text rule matches, as a search pattern,
the whitespace-trimmed matched substring or the full untrimmed source line:
(i) the rule-set check is an existential over `re.search` on the given text;
(ii) a candidate is dropped by the filter iff a rule matches its trimmed
matched text or its full line; (iii) `scan_file`'s output is exactly the
surviving candidates, materialized — so a suppressed candidate appears in no
finding list (hence in no report and no summary count). -/
theorem suppression_dual_check_iff :
    (∀ (text : String) (pats : List RE),
      is_allowed_match text pats = true ↔ ∃ p ∈ pats, reSearch p text = true) ∧
    (∀ (pats : List RE) (c : Candidate),
      survives pats c = false ↔
        (is_allowed_match (normalize_match c.raw) pats = true ∨
          is_allowed_match c.lineText pats = true)) ∧
    (∀ (file_path content : String) (pats : List RE),
      scan_file file_path (some content) pats =
        ((fileCandidates file_path content).filter (survives pats)).map toIssue) ∧
    (∀ (root : String) (listing : Option (List FSTree)) (ap : List String)
        (pats : List RE),
      scan_repository root listing ap pats =
        ((allCandidates root listing ap).filter (survives pats)).map toIssue) := by
  refine ⟨?_, ?_, ?_, ?_⟩
  · intro text pats
    exact List.any_eq_true
  · intro pats c
    cases h1 : is_allowed_match (normalize_match c.raw) pats <;>
      cases h2 : is_allowed_match c.lineText pats <;>
      simp [survives, h1, h2]
  · intro file_path content pats
    exact scan_file_some_eq file_path content pats
  · intro root listing ap pats
    exact scan_repository_eq root listing ap pats

/-- Witness for C1 at a concrete file, content and rule list. -/
theorem suppression_dual_check_iff_w :
    scan_file "contact.txt" (some "Contact: alice@example.com or 555-123-4567")
        [rstr "example.com"] =
      ((fileCandidates "contact.txt"
          "Contact: alice@example.com or 555-123-4567").filter
        (survives [rstr "example.com"])).map toIssue :=
  suppression_dual_check_iff.2.2.1 "contact.txt"
    "Contact: alice@example.com or 555-123-4567" [rstr "example.com"]

/-- C3: every finding's severity is the pure severity-of-kind mapping
(`email` is medium; `phone` and `ssn` are high); no per-finding override. -/
theorem severity_pure_function_of_kind (root : String)
    (listing : Option (List FSTree)) (ap : List String) (pats : List RE) :
    (∀ issue ∈ scan_repository root listing ap pats,
      issue.severity = severity_of issue.type) ∧
    severity_of "email" = "medium" ∧ severity_of "phone" = "high" ∧
    severity_of "ssn" = "high" := by
  refine ⟨?_, rfl, rfl, rfl⟩
  intro issue hmem
  rw [scan_repository_eq] at hmem
  obtain ⟨c, _, rfl⟩ := List.mem_map.mp hmem
  rfl

/-- Witness for C3: a concrete finding of a concrete scan. -/
theorem severity_pure_function_of_kind_w :
    ({ file := "/repo/contact.txt", line := 1, type := "email", «match» := "alice@example.com", severity := "medium", context := "Contact: alice@example.com or 555-123-4567" } : Issue).severity
      = severity_of ({ file := "/repo/contact.txt", line := 1, type := "email", «match» := "alice@example.com", severity := "medium", context := "Contact: alice@example.com or 555-123-4567" } : Issue).type :=
  (severity_pure_function_of_kind "/repo"
      (some [FSTree.file "contact.txt"
        (some "Contact: alice@example.com or 555-123-4567")]) [] []).1
    _ (by decide)

/-- C4: for every finding list handed to the report builder, the summary's
total is the list's length, each per-severity count is exactly the number of
findings of that severity, the three counts (always present, zero included)
sum to the total whenever every finding carries one of the three severities —
as every finding produced by the scanner does — and the empty list yields a
zero-filled summary. -/
theorem report_summary_partitions (generated_at root : String)
    (issues : List Issue)
    (h : ∀ issue ∈ issues,
      issue.severity = "high" ∨ issue.severity = "medium" ∨ issue.severity = "low") :
    (write_report generated_at issues root).summary.total_findings = issues.length ∧
    (write_report generated_at issues root).summary.by_severity.high =
      (issues.filter (fun i => i.severity == "high")).length ∧
    (write_report generated_at issues root).summary.by_severity.medium =
      (issues.filter (fun i => i.severity == "medium")).length ∧
    (write_report generated_at issues root).summary.by_severity.low =
      (issues.filter (fun i => i.severity == "low")).length ∧
    (write_report generated_at issues root).summary.by_severity.high +
      (write_report generated_at issues root).summary.by_severity.medium +
      (write_report generated_at issues root).summary.by_severity.low =
      issues.length ∧
    (write_report generated_at [] root).summary =
      { total_findings := 0, by_severity := { high := 0, medium := 0, low := 0 } } ∧
    (∀ (listing : Option (List FSTree)) (ap : List String) (ps : List RE),
      (write_report generated_at (scan_repository root listing ap ps) root).summary.by_severity.high +
        (write_report generated_at (scan_repository root listing ap ps) root).summary.by_severity.medium +
        (write_report generated_at (scan_repository root listing ap ps) root).summary.by_severity.low =
        (scan_repository root listing ap ps).length) := by
  refine ⟨rfl, rfl, rfl, rfl, count_three_severities issues h, rfl, ?_⟩
  intro listing ap ps
  exact count_three_severities _ (scan_severity_valid root listing ap ps)

/-- Witness for C4 at a concrete one-finding list. -/
theorem report_summary_partitions_w :
    (write_report "ts"
        [{ file := "a", line := 1, type := "email", «match» := "x",
           severity := "medium", context := "x" }] "/r").summary.total_findings = 1 ∧
    (write_report "ts"
        [{ file := "a", line := 1, type := "email", «match» := "x",
           severity := "medium", context := "x" }] "/r").summary.by_severity.high +
      (write_report "ts"
        [{ file := "a", line := 1, type := "email", «match» := "x",
           severity := "medium", context := "x" }] "/r").summary.by_severity.medium +
      (write_report "ts"
        [{ file := "a", line := 1, type := "email", «match» := "x",
           severity := "medium", context := "x" }] "/r").summary.by_severity.low = 1 := by
  have h := report_summary_partitions "ts" "/r"
    [{ file := "a", line := 1, type := "email", «match» := "x",
       severity := "medium", context := "x" }]
    (by intro issue hmem; simp at hmem; rw [hmem]; exact Or.inr (Or.inl rfl))
  exact ⟨h.1, h.2.2.2.2.1⟩

/-- C7: a file whose read or decode raises contributes exactly zero findings,
and the rest of the scan is unaffected: deleting the failing file's entry from
the traversal leaves every other file's contribution unchanged. -/
theorem file_read_error_is_local (root file_path : String) (ap : List String)
    (pats : List RE) (pre post : List (List String × FSTree))
    (parts : List String) (name : String) :
    scan_file file_path none pats = [] ∧
    scan_entries root ap pats (pre ++ (parts, FSTree.file name none) :: post) =
      scan_entries root ap pats (pre ++ post) := by
  refine ⟨rfl, ?_⟩
  induction pre with
  | nil =>
    show (if should_ignore_path parts ap then scan_entries root ap pats post
          else scan_file (root ++ "/" ++ rel_posix parts) none pats ++
            scan_entries root ap pats post) = scan_entries root ap pats post
    by_cases h : should_ignore_path parts ap
    · rw [if_pos h]
    · rw [if_neg h]
      rfl
  | cons e rest ih =>
    obtain ⟨ps, t⟩ := e
    cases t with
    | dir n cs =>
      show (if should_ignore_path ps ap then
              scan_entries root ap pats (rest ++ (parts, FSTree.file name none) :: post)
            else
              scan_entries root ap pats (rest ++ (parts, FSTree.file name none) :: post)) =
           (if should_ignore_path ps ap then scan_entries root ap pats (rest ++ post)
            else scan_entries root ap pats (rest ++ post))
      rw [ite_self, ite_self]
      exact ih
    | file n rd =>
      show (if should_ignore_path ps ap then
              scan_entries root ap pats (rest ++ (parts, FSTree.file name none) :: post)
            else
              scan_file (root ++ "/" ++ rel_posix ps) rd pats ++
                scan_entries root ap pats (rest ++ (parts, FSTree.file name none) :: post)) =
           (if should_ignore_path ps ap then scan_entries root ap pats (rest ++ post)
            else
              scan_file (root ++ "/" ++ rel_posix ps) rd pats ++
                scan_entries root ap pats (rest ++ post))
      by_cases h : should_ignore_path ps ap
      · rw [if_pos h, if_pos h]
        exact ih
      · rw [if_neg h, if_neg h]
        exact congrArg _ ih

/-- C9: the scenario line `Contact: alice@example.com or 555-123-4567` yields
exactly an email finding (medium, `alice@example.com`) followed by a phone
finding (high, `555-123-4567`) under an empty allowlist, and zero findings
once the text rule `example\.com` is present (it suppresses the email by its
matched text and the phone by the shared source line). -/
theorem contact_line_scenario :
    scan_file "contact.txt" (some "Contact: alice@example.com or 555-123-4567") [] =
      [{ file := "contact.txt", line := 1, type := "email", «match» := "alice@example.com", severity := "medium", context := "Contact: alice@example.com or 555-123-4567" },
       { file := "contact.txt", line := 1, type := "phone", «match» := "555-123-4567", severity := "high", context := "Contact: alice@example.com or 555-123-4567" }] ∧
    scan_file "contact.txt" (some "Contact: alice@example.com or 555-123-4567")
      [rstr "example.com"] = [] :=
  ⟨rfl, rfl⟩

/-- C10: a missing allowlist file loads as empty rule lists and the pipeline
runs to a report with zero suppressions; an existing but malformed allowlist
raises, and the error aborts the run before any report value is built. -/
theorem allowlist_missing_vs_malformed :
    load_allowlist none = Except.ok ([], []) ∧
    (∀ (root : String) (listing : Option (List FSTree)) (now : String),
      mainResult none root listing now =
        Except.ok (write_report now (scan_repository root listing [] []) root)) ∧
    (∀ (e root : String) (listing : Option (List FSTree)) (now : String),
      mainResult (some (Except.error e)) root listing now = Except.error e) :=
  ⟨rfl, fun _ _ _ => rfl, fun _ _ _ _ => rfl⟩

/-- Every candidate generated for a file carries that file's path. -/
theorem mem_fileCandidates_file (file_path content : String) (c : Candidate)
    (h : c ∈ fileCandidates file_path content) : c.file = file_path := by
  rcases List.mem_flatMap.mp h with ⟨nl, _, hc⟩
  rcases List.mem_flatMap.mp hc with ⟨pt, _, hm⟩
  rcases List.mem_map.mp hm with ⟨m, _, rfl⟩
  rfl

/-- Every finding of a file scan names that file. -/
theorem mem_scan_file_file (file_path : String) (rd : Option String)
    (pats : List RE) (issue : Issue) (h : issue ∈ scan_file file_path rd pats) :
    issue.file = file_path := by
  cases rd with
  | none => cases h
  | some content =>
    rw [scan_file_some_eq] at h
    rcases List.mem_map.mp h with ⟨c, hc, rfl⟩
    have := mem_fileCandidates_file file_path content c (List.mem_filter.mp hc).1
    exact this

/-- Every issue of `scan_entries` comes from a file entry that the path filter
let through. -/
theorem mem_scan_entries (root : String) (ap : List String) (pats : List RE)
    (l : List (List String × FSTree)) (issue : Issue)
    (hmem : issue ∈ scan_entries root ap pats l) :
    ∃ parts name rd, (parts, FSTree.file name rd) ∈ l ∧
      should_ignore_path parts ap = false ∧
      issue ∈ scan_file (root ++ "/" ++ rel_posix parts) rd pats := by
  induction l with
  | nil => cases hmem
  | cons e rest ih =>
    obtain ⟨ps, t⟩ := e
    cases t with
    | dir n cs =>
      have heq : scan_entries root ap pats ((ps, FSTree.dir n cs) :: rest) =
          scan_entries root ap pats rest := ite_self _
      rw [heq] at hmem
      obtain ⟨parts, name, rd, hin, hig, hsc⟩ := ih hmem
      exact ⟨parts, name, rd, List.mem_cons_of_mem _ hin, hig, hsc⟩
    | file n rd =>
      by_cases h : should_ignore_path ps ap
      · have heq : scan_entries root ap pats ((ps, FSTree.file n rd) :: rest) =
            scan_entries root ap pats rest := if_pos h
        rw [heq] at hmem
        obtain ⟨parts, name, rd2, hin, hig, hsc⟩ := ih hmem
        exact ⟨parts, name, rd2, List.mem_cons_of_mem _ hin, hig, hsc⟩
      · have heq : scan_entries root ap pats ((ps, FSTree.file n rd) :: rest) =
            scan_file (root ++ "/" ++ rel_posix ps) rd pats ++
              scan_entries root ap pats rest := if_neg h
        rw [heq] at hmem
        rcases List.mem_append.mp hmem with hmem1 | hmem2
        · refine ⟨ps, n, rd, List.mem_cons_self _ _, ?_, hmem1⟩
          revert h
          cases should_ignore_path ps ap <;> simp
        · obtain ⟨parts, name, rd2, hin, hig, hsc⟩ := ih hmem2
          exact ⟨parts, name, rd2, List.mem_cons_of_mem _ hin, hig, hsc⟩

/-- A path with a built-in-excluded directory component is always skipped by
the path filter. -/
theorem should_ignore_of_builtin_dir (parts ap : List String)
    (h : ∃ d ∈ DEFAULT_IGNORED_DIRECTORIES, d ∈ parts) :
    should_ignore_path parts ap = true := by
  obtain ⟨d, hd, hdp⟩ := h
  have hany : parts.any (fun part => DEFAULT_IGNORED_DIRECTORIES.contains part) = true :=
    List.any_eq_true.mpr ⟨d, hdp, List.elem_eq_true_of_mem hd⟩
  unfold should_ignore_path
  rw [hany]
  rfl

/-- C5: no finding ever refers to a file whose relative path has a component
in the built-in directory-exclusion set — every finding's path comes from an
entry the filter passed, whose components avoid the set — and conversely a
file entry placed anywhere under a built-in-excluded directory name
contributes zero findings regardless of its content. -/
theorem no_finding_under_builtin_excluded_dir (root : String)
    (listing : Option (List FSTree)) (ap : List String) (pats : List RE) :
    (∀ issue ∈ scan_repository root listing ap pats,
      ∃ parts, issue.file = root ++ "/" ++ rel_posix parts ∧
        should_ignore_path parts ap = false ∧
        ∀ d ∈ DEFAULT_IGNORED_DIRECTORIES, d ∉ parts) ∧
    (∀ (pre post : List (List String × FSTree)) (parts : List String)
        (name : String) (rd : Option String),
      (∃ d ∈ DEFAULT_IGNORED_DIRECTORIES, d ∈ parts) →
      scan_entries root ap pats (pre ++ (parts, FSTree.file name rd) :: post) =
        scan_entries root ap pats (pre ++ post)) := by
  constructor
  · intro issue hmem
    obtain ⟨parts, name, rd, _, hig, hsc⟩ :=
      mem_scan_entries root ap pats (rootEntries listing) issue hmem
    refine ⟨parts, mem_scan_file_file _ rd pats issue hsc, hig, ?_⟩
    intro d hd hdp
    have htrue := should_ignore_of_builtin_dir parts ap ⟨d, hd, hdp⟩
    rw [hig] at htrue
    exact Bool.noConfusion htrue
  · intro pre post parts name rd hex
    have hig := should_ignore_of_builtin_dir parts ap hex
    induction pre with
    | nil =>
      show (if should_ignore_path parts ap then scan_entries root ap pats post
            else scan_file (root ++ "/" ++ rel_posix parts) rd pats ++
              scan_entries root ap pats post) = scan_entries root ap pats post
      rw [hig]
      rfl
    | cons e rest ih =>
      obtain ⟨ps, t⟩ := e
      cases t with
      | dir n cs =>
        show (if should_ignore_path ps ap then
                scan_entries root ap pats (rest ++ (parts, FSTree.file name rd) :: post)
              else
                scan_entries root ap pats (rest ++ (parts, FSTree.file name rd) :: post)) =
             (if should_ignore_path ps ap then scan_entries root ap pats (rest ++ post)
              else scan_entries root ap pats (rest ++ post))
        rw [ite_self, ite_self]
        exact ih
      | file n rd2 =>
        show (if should_ignore_path ps ap then
                scan_entries root ap pats (rest ++ (parts, FSTree.file name rd) :: post)
              else
                scan_file (root ++ "/" ++ rel_posix ps) rd2 pats ++
                  scan_entries root ap pats (rest ++ (parts, FSTree.file name rd) :: post)) =
             (if should_ignore_path ps ap then scan_entries root ap pats (rest ++ post)
              else
                scan_file (root ++ "/" ++ rel_posix ps) rd2 pats ++
                  scan_entries root ap pats (rest ++ post))
        by_cases h : should_ignore_path ps ap
        · rw [if_pos h, if_pos h]
          exact ih
        · rw [if_neg h, if_neg h]
          exact congrArg _ ih

/-- Witness for C5: a concrete finding's path avoids the exclusion set, and a
concrete file entry under `node_modules` contributes nothing. -/
theorem no_finding_under_builtin_excluded_dir_w :
    (∃ parts, ({ file := "/r/a.txt", line := 1, type := "email", «match» := "bob@test.org", severity := "medium", context := "email me: bob@test.org" } : Issue).file = "/r" ++ "/" ++ rel_posix parts ∧
      should_ignore_path parts [] = false ∧
      ∀ d ∈ DEFAULT_IGNORED_DIRECTORIES, d ∉ parts) ∧
    scan_entries "/r" [] [] ([] ++ (["node_modules", "creds.txt"], FSTree.file "creds.txt" (some "a@b.co")) :: []) =
      scan_entries "/r" [] [] ([] ++ []) :=
  ⟨(no_finding_under_builtin_excluded_dir "/r"
      (some [FSTree.file "a.txt" (some "email me: bob@test.org")]) [] []).1
      _ (by decide),
   (no_finding_under_builtin_excluded_dir "/r" none [] []).2 [] []
      ["node_modules", "creds.txt"] "creds.txt" (some "a@b.co")
      ⟨"node_modules", by decide, by decide⟩⟩

/-- C6 fails on the code: the traversal does descend into built-in-excluded
directories.  `root.rglob("*")` enumerates every entry of the tree before any
filtering, and the directory branch of `scan_repository`'s loop `continue`s on
both sides of its `should_ignore_path` check (its "skip walking" comment
notwithstanding), so an entry beneath `node_modules` is visited by the
traversal — exclusion happens per-path afterwards, not by pruning. -/
theorem rglob_visits_excluded_subtree :
    (rootEntries (some [FSTree.dir "node_modules"
        [FSTree.file "creds.txt" (some "Contact: alice@example.com")]])).map Prod.fst =
      [["node_modules"], ["node_modules", "creds.txt"]] := rfl

/-- C8 fails on the code: for a root that cannot be listed, `rglob` yields no
entries and raises nothing, so the scan returns an empty finding list and the
pipeline builds (and writes) a zero-finding report instead of aborting with a
fatal error. -/
theorem unlistable_root_produces_report :
    mainResult none "/missing/root" none "2026-01-01T00:00:00Z" =
      Except.ok { generated_at := "2026-01-01T00:00:00Z", repository_root := "/missing/root", issues := [], summary := { total_findings := 0, by_severity := { high := 0, medium := 0, low := 0 } } } := rfl

/-- C2 fails as stated: in the scan of a one-file tree whose only line is
`Contact: alice@example.com or 555-123-4567`, the added text rule
`example\.com` (the literal-string regex) matches the matched text of exactly
one existing finding — the email, not the phone — yet the next scan is empty:
the phone finding is also removed, because the rule matches the shared source
line.  The output is not the previous output minus one finding. -/
theorem suppression_not_monotone_cx :
    scan_repository "/repo" (some [FSTree.file "contact.txt" (some "Contact: alice@example.com or 555-123-4567")]) [] [] =
      [{ file := "/repo/contact.txt", line := 1, type := "email", «match» := "alice@example.com", severity := "medium", context := "Contact: alice@example.com or 555-123-4567" },
       { file := "/repo/contact.txt", line := 1, type := "phone", «match» := "555-123-4567", severity := "high", context := "Contact: alice@example.com or 555-123-4567" }] ∧
    reSearch (rstr "example.com") "alice@example.com" = true ∧
    reSearch (rstr "example.com") "555-123-4567" = false ∧
    scan_repository "/repo" (some [FSTree.file "contact.txt" (some "Contact: alice@example.com or 555-123-4567")]) [] [rstr "example.com"] = [] ∧
    ([] : List Issue) ≠
      [{ file := "/repo/contact.txt", line := 1, type := "phone", «match» := "555-123-4567", severity := "high", context := "Contact: alice@example.com or 555-123-4567" }] := by
  refine ⟨rfl, rfl, rfl, rfl, ?_⟩
  decide

/-- C2 amended: adding one text rule that matches the matched text of exactly
one surviving candidate — and that matches neither the matched text nor the
full source line of any other surviving candidate — removes exactly the
finding(s) of that candidate from the next scan's output and leaves every
other finding unchanged. -/
theorem suppression_monotone_amended (root : String)
    (listing : Option (List FSTree)) (ap : List String) (pats : List RE)
    (r : RE) (c0 : Candidate)
    (hmem : c0 ∈ (allCandidates root listing ap).filter (survives pats))
    (hr : reSearch r (normalize_match c0.raw) = true)
    (hothers : ∀ c ∈ (allCandidates root listing ap).filter (survives pats),
      c ≠ c0 → reSearch r (normalize_match c.raw) = false ∧
        reSearch r c.lineText = false) :
    scan_repository root listing ap pats =
      ((allCandidates root listing ap).filter (survives pats)).map toIssue ∧
    scan_repository root listing ap (pats ++ [r]) =
      (((allCandidates root listing ap).filter (survives pats)).filter
        (fun c => decide (c ≠ c0))).map toIssue := by
  refine ⟨scan_repository_eq root listing ap pats, ?_⟩
  rw [scan_repository_eq root listing ap (pats ++ [r])]
  rw [List.filter_filter]
  congr 1
  apply List.filter_congr
  intro c hc
  show survives (pats ++ [r]) c = (decide (c ≠ c0) && survives pats c)
  by_cases hcs : survives pats c = true
  · by_cases hc0 : c = c0
    · subst hc0
      have hfalse : survives (pats ++ [r]) c = false := by
        show (!(is_allowed_match (normalize_match c.raw) (pats ++ [r]) ||
          is_allowed_match c.lineText (pats ++ [r]))) = false
        rw [is_allowed_match_append, hr]
        simp
      rw [hfalse, hcs]
      simp
    · obtain ⟨h1, h2⟩ := hothers c (List.mem_filter.mpr ⟨hc, hcs⟩) hc0
      have heq : survives (pats ++ [r]) c = survives pats c := by
        show (!(is_allowed_match (normalize_match c.raw) (pats ++ [r]) ||
            is_allowed_match c.lineText (pats ++ [r]))) =
          (!(is_allowed_match (normalize_match c.raw) pats ||
            is_allowed_match c.lineText pats))
        rw [is_allowed_match_append, is_allowed_match_append, h1, h2]
        simp
      rw [heq, hcs]
      simp [hc0]
  · have hcs' : survives pats c = false := by
      revert hcs
      cases survives pats c <;> simp
    have hfalse : survives (pats ++ [r]) c = false := by
      revert hcs'
      show (!(is_allowed_match (normalize_match c.raw) pats ||
          is_allowed_match c.lineText pats)) = false →
        (!(is_allowed_match (normalize_match c.raw) (pats ++ [r]) ||
          is_allowed_match c.lineText (pats ++ [r]))) = false
      rw [is_allowed_match_append, is_allowed_match_append]
      cases is_allowed_match (normalize_match c.raw) pats <;>
        cases is_allowed_match c.lineText pats <;> simp
    rw [hfalse, hcs']
    simp

/-- Witness for C2's amended statement: adding the rule `bob` to an empty
allowlist removes exactly the single email finding of a one-file tree. -/
theorem suppression_monotone_amended_w :
    scan_repository "/r" (some [FSTree.file "a.txt" (some "email me: bob@test.org")]) [] [] =
      ((allCandidates "/r" (some [FSTree.file "a.txt" (some "email me: bob@test.org")]) []).filter (survives [])).map toIssue ∧
    scan_repository "/r" (some [FSTree.file "a.txt" (some "email me: bob@test.org")]) [] ([] ++ [rstr "bob"]) =
      (((allCandidates "/r" (some [FSTree.file "a.txt" (some "email me: bob@test.org")]) []).filter (survives [])).filter
        (fun c => decide (c ≠ ⟨"/r/a.txt", 1, "email me: bob@test.org", "email", "bob@test.org"⟩))).map toIssue :=
  suppression_monotone_amended "/r"
    (some [FSTree.file "a.txt" (some "email me: bob@test.org")]) [] []
    (rstr "bob") ⟨"/r/a.txt", 1, "email me: bob@test.org", "email", "bob@test.org"⟩
    (by decide) (by decide) (by decide)
